import Mathlib

/-!
Verification of the client-side derivation layer of the maintenance-records
dashboard: the warranty evaluator, the summary view-model builder
(monthly series merge and category breakdowns) and the record history
resolver, as implemented in `RecordDetailModal.tsx` and the sales-summary
component.

The embedding is shallow: each TypeScript function becomes a Lean
function over explicit inputs.  JavaScript numbers appearing in the data
(counts, revenues, timestamps in milliseconds) are modelled as `Int`;
the one place where a NaN can arise (date arithmetic on an unparseable
date string) is modelled explicitly with `Option`.  JavaScript objects
used as string-keyed mappings are modelled as association lists in key
insertion order, which is the enumeration order `Object.entries` gives
for the non-numeric keys used here; their keys are unique by
construction in JavaScript.  The implicit `new Date()` clock read inside
`calculateWarrantyStatus` becomes an explicit `now` argument, and the
network calls of the history resolver become explicit
`Except`-valued fetch results supplied by the environment.
-/

/-! ## Dates

A `CivilDate` records the calendar fields a parsed `Date` carries
together with its milliseconds-of-day.  `toMs` converts to the epoch
timestamp (`Date.prototype.getTime`), via the standard civil-from-days
conversion used by date libraries; divisions are C-style truncating
divisions (`Int.tdiv`), and every division below acts on operands
arranged to make truncation agree with flooring, so the conversion
agrees with the ECMAScript `MakeDay`/`MakeDate` computation.  Field
overflow (e.g. Feb 29 of a non-leap year, which `setFullYear` produces
from a Feb 29 delivery) is handled linearly, exactly as `Date`
normalises it. -/

structure CivilDate where
  year : Int
  month : Int
  day : Int
  msOfDay : Int
deriving DecidableEq, Repr

/-- Number of days from the epoch 1970-01-01 to the civil date `y-m-d`
(Howard Hinnant's `days_from_civil` algorithm). -/
def daysFromCivil (y m d : Int) : Int :=
  let y := y - (if m ≤ 2 then 1 else 0)
  let era := Int.tdiv (if 0 ≤ y then y else y - 399) 400
  let yoe := y - era * 400
  let doy := Int.tdiv (153 * (m + (if 2 < m then -3 else 9)) + 2) 5 + d - 1
  let doe := yoe * 365 + Int.tdiv yoe 4 - Int.tdiv yoe 100 + doy
  era * 146097 + doe - 719468

/-- Milliseconds per day: the divisor `1000 * 60 * 60 * 24` used by
`calculateWarrantyStatus`. -/
def msPerDay : Int := 86400000

/-- Epoch timestamp in milliseconds of a civil date
(`Date.prototype.getTime`). -/
def toMs (c : CivilDate) : Int :=
  daysFromCivil c.year c.month c.day * msPerDay + c.msOfDay

/-- Exact ceiling division: `Math.ceil (a / b)` for integer `a` and
positive integer `b`. -/
def ceilDiv (a b : Int) : Int := -((-a).fdiv b)

/-! ## Warranty evaluator (`calculateWarrantyStatus`)

The source reads `currentRecord.date_of_delivery` and feeds it to
`new Date(...)`.  The field is either falsy (absent or the empty
string), a string the `Date` parser rejects (an Invalid Date whose
timestamp is NaN), or a string it parses to a civil date; `DeliveryField`
records which of the three cases holds, carrying the parse result in the
last case.  The `new Date()` read of the current time becomes the `now`
argument (epoch milliseconds). -/

inductive DeliveryField where
  | absent
  | unparseable
  | parsed (d : CivilDate)
deriving DecidableEq, Repr

/-- A `Date` value as stored in the returned object: either a valid date
or an Invalid Date (NaN timestamp).  Both are truthy objects in JS; the
`expiry : null` of the no-date branch is modelled by `Option.none`
around this type. -/
inductive JSDate where
  | valid (d : CivilDate)
  | invalid
deriving DecidableEq, Repr

inductive WarrantyTag where
  | out_of_warranty
  | expiring_soon
  | in_warranty
deriving DecidableEq, Repr

/-- The object literal `{ status, expiry, daysRemaining }` returned by
`calculateWarrantyStatus`.  `daysRemaining = none` models the NaN
produced when the delivery date is unparseable. -/
structure WarrantyStatus where
  status : WarrantyTag
  expiry : Option JSDate
  daysRemaining : Option Int
deriving DecidableEq, Repr

/-- `calculateWarrantyStatus` from `RecordDetailModal.tsx`.

* falsy `date_of_delivery` → `{ status: 'out_of_warranty', expiry: null, daysRemaining: 0 }`;
* unparseable date → `delivery.getTime()` is NaN, so `daysRemaining` is
  NaN; `NaN < 0` and `NaN <= 30` are both false, hence the final branch
  returns `in_warranty` with an Invalid Date expiry and NaN days;
* parsed date → `expiry` is the delivery date with
  `setFullYear(getFullYear() + 1)`, and
  `daysRemaining = Math.ceil((expiry.getTime() - today.getTime()) / 86400000)`,
  classified by `< 0` (absolute value reported), `<= 30`, else. -/
def calculateWarrantyStatus (date_of_delivery : DeliveryField) (now : Int) :
    WarrantyStatus :=
  match date_of_delivery with
  | .absent => ⟨.out_of_warranty, none, some 0⟩
  | .unparseable => ⟨.in_warranty, some .invalid, none⟩
  | .parsed d =>
    let expiry : CivilDate := { d with year := d.year + 1 }
    let daysRemaining : Int := ceilDiv (toMs expiry - now) msPerDay
    if daysRemaining < 0 then
      ⟨.out_of_warranty, some (.valid expiry), some |daysRemaining|⟩
    else if daysRemaining ≤ 30 then
      ⟨.expiring_soon, some (.valid expiry), some daysRemaining⟩
    else
      ⟨.in_warranty, some (.valid expiry), some daysRemaining⟩

/-- The value `Math.ceil((expiry - today) / msPerDay)` computed for a
parsed delivery date `d` and clock reading `now`. -/
def warrantyDays (d : CivilDate) (now : Int) : Int :=
  ceilDiv (toMs ⟨d.year + 1, d.month, d.day, d.msOfDay⟩ - now) msPerDay

/-- C1.  For every parseable delivery date and every current time, the
expiry is the delivery date with the year incremented by one, the day
count is the ceiling of `(expiry − now)` in days, and classification is
by `daysRemaining < 0` (out of warranty, absolute value reported), then
`daysRemaining ≤ 30` (expiring soon), then in warranty; in particular 30
days gives expiring_soon, 31 in_warranty, 0 expiring_soon and −1
out_of_warranty. -/
theorem warranty_parsed_classification (d : CivilDate) (now : Int) :
    (calculateWarrantyStatus (.parsed d) now).expiry
        = some (.valid ⟨d.year + 1, d.month, d.day, d.msOfDay⟩)
    ∧ (warrantyDays d now < 0 →
        calculateWarrantyStatus (.parsed d) now
          = ⟨.out_of_warranty, some (.valid ⟨d.year + 1, d.month, d.day, d.msOfDay⟩),
              some (-(warrantyDays d now))⟩)
    ∧ (0 ≤ warrantyDays d now → warrantyDays d now ≤ 30 →
        calculateWarrantyStatus (.parsed d) now
          = ⟨.expiring_soon, some (.valid ⟨d.year + 1, d.month, d.day, d.msOfDay⟩),
              some (warrantyDays d now)⟩)
    ∧ (30 < warrantyDays d now →
        calculateWarrantyStatus (.parsed d) now
          = ⟨.in_warranty, some (.valid ⟨d.year + 1, d.month, d.day, d.msOfDay⟩),
              some (warrantyDays d now)⟩)
    ∧ (warrantyDays d now = 30 →
        (calculateWarrantyStatus (.parsed d) now).status = .expiring_soon)
    ∧ (warrantyDays d now = 31 →
        (calculateWarrantyStatus (.parsed d) now).status = .in_warranty)
    ∧ (warrantyDays d now = 0 →
        (calculateWarrantyStatus (.parsed d) now).status = .expiring_soon)
    ∧ (warrantyDays d now = -1 →
        (calculateWarrantyStatus (.parsed d) now).status = .out_of_warranty ∧
          (calculateWarrantyStatus (.parsed d) now).daysRemaining = some 1) := by
  have hdef : calculateWarrantyStatus (.parsed d) now =
      (if warrantyDays d now < 0 then
        ⟨.out_of_warranty, some (.valid ⟨d.year + 1, d.month, d.day, d.msOfDay⟩),
          some |warrantyDays d now|⟩
      else if warrantyDays d now ≤ 30 then
        ⟨.expiring_soon, some (.valid ⟨d.year + 1, d.month, d.day, d.msOfDay⟩),
          some (warrantyDays d now)⟩
      else
        ⟨.in_warranty, some (.valid ⟨d.year + 1, d.month, d.day, d.msOfDay⟩),
          some (warrantyDays d now)⟩ : WarrantyStatus) := by
    simp only [calculateWarrantyStatus, warrantyDays]
  rw [hdef]
  split_ifs with h1 h2 <;>
    refine ⟨rfl, ?_, ?_, ?_, ?_, ?_, ?_, ?_⟩ <;> intros <;> simp_all <;> omega

/-- Concrete instance of `warranty_parsed_classification`: a delivery on
2024-01-15 evaluated on 2025-01-01 has 14 days remaining and is
expiring_soon. -/
theorem warranty_parsed_classification_witness :
    calculateWarrantyStatus (.parsed ⟨2024, 1, 15, 0⟩) (toMs ⟨2025, 1, 1, 0⟩)
      = ⟨.expiring_soon, some (.valid ⟨2025, 1, 15, 0⟩), some 14⟩ := by
  have h := warranty_parsed_classification ⟨2024, 1, 15, 0⟩ (toMs ⟨2025, 1, 1, 0⟩)
  have h14 : warrantyDays ⟨2024, 1, 15, 0⟩ (toMs ⟨2025, 1, 1, 0⟩) = 14 := by decide
  have := h.2.2.1 (by rw [h14]; decide) (by rw [h14]; decide)
  rw [h14] at this
  exact this

/-- C4 counterexample.  On an absent delivery date the evaluator does not
fail with an `InvalidDate` signalled as "no warranty data": it returns
the classification `out_of_warranty` (with a null expiry and a day count
of 0), and on an unparseable date it returns the classification
`in_warranty`. -/
theorem warranty_missing_date_counterexample :
    (calculateWarrantyStatus .absent 0).status = .out_of_warranty
    ∧ (calculateWarrantyStatus .unparseable 0).status = .in_warranty := by
  exact ⟨rfl, rfl⟩

/-- C4 amended.  For every current time: an absent (falsy) delivery date
yields `out_of_warranty` with a null expiry — the null expiry being what
the view renders as the absence of warranty data — and a day count of 0;
an unparseable delivery date yields `in_warranty` with an Invalid Date
expiry and a NaN day count.  In both cases a plain value is returned, so
no fatal error propagates. -/
theorem warranty_missing_and_invalid_behavior (now : Int) :
    calculateWarrantyStatus .absent now = ⟨.out_of_warranty, none, some 0⟩
    ∧ calculateWarrantyStatus .unparseable now = ⟨.in_warranty, some .invalid, none⟩ := by
  exact ⟨rfl, rfl⟩

/-- C6.  With the clock read made explicit, the warranty evaluator is a
pure function of the delivery date and the supplied current time: two
evaluations with the same delivery date and the same `now` give the same
result.  (The source itself reads `new Date()` internally instead of
accepting `now` as a parameter.) -/
theorem warranty_deterministic (d : DeliveryField) (now₁ now₂ : Int)
    (h : now₁ = now₂) :
    calculateWarrantyStatus d now₁ = calculateWarrantyStatus d now₂ := by
  rw [h]

/-- Concrete instance of `warranty_deterministic` at a fixed date and
time. -/
theorem warranty_deterministic_witness :
    calculateWarrantyStatus (.parsed ⟨2024, 1, 15, 0⟩) 1700000000000
      = calculateWarrantyStatus (.parsed ⟨2024, 1, 15, 0⟩) 1700000000000 := by
  exact warranty_deterministic (.parsed ⟨2024, 1, 15, 0⟩) 1700000000000 1700000000000 rfl

/-! ## Summary payload (`SalesSummary`)

The fields of the payload that the chart-preparation functions read.
`monthly_trends` and `projected_sales` are the ordered monthly series;
the `by_*` fields are the JS objects mapping a category key to a count
and, in the parallel `_revenue` object, to a revenue figure.  The
objects are modelled as association lists in key insertion order. -/

structure MonthEntry where
  month : String
  count : Int
  revenue : Int
deriving DecidableEq, Repr

structure Summary where
  monthly_trends : List MonthEntry
  projected_sales : List MonthEntry
  by_zone : List (String × Int)
  by_zone_revenue : List (String × Int)
  by_lead_source : List (String × Int)
  by_lead_source_revenue : List (String × Int)
  by_sold_by : List (String × Int)
  by_sold_by_revenue : List (String × Int)
deriving DecidableEq, Repr

/-- Month names produced by `toLocaleDateString('en-US', { month: 'short' })`. -/
def monthShortNames : List String :=
  ["Jan", "Feb", "Mar", "Apr", "May", "Jun", "Jul", "Aug", "Sep", "Oct", "Nov", "Dec"]

/-- `formatMonth` from the sales-summary component: split `"YYYY-MM"` on
`'-'`, build `new Date(year, monthNum - 1)` (whose constructor
normalises an out-of-range month index into the year) and render it as
e.g. `"Jan 2025"`.  A key whose parts do not parse as integers gives an
Invalid Date, rendered as `"Invalid Date"`. -/
def formatMonth (month : String) : String :=
  let parts := month.splitOn "-"
  match (parts.getD 0 "").toInt?, (parts.getD 1 "").toInt? with
  | some y, some monthNum =>
    let total := y * 12 + (monthNum - 1)
    (monthShortNames.getD (Int.emod total 12).toNat "") ++ " "
      ++ toString (Int.ediv total 12)
  | _, _ => "Invalid Date"

/-- A row of the merged monthly chart series. -/
structure MonthRow where
  month : String
  monthKey : String
  actualCount : Int
  projectedCount : Int
  actualRevenue : Int
  projectedRevenue : Int
  isProjected : Bool
deriving DecidableEq, Repr

/-- `prepareMonthlyData` from the sales-summary component: concatenate
`monthly_trends` and `projected_sales` (each `|| []` when the payload is
null) and map every item of the concatenation to a row, looking each
item's month up in both series with `find` and defaulting the four
figures to 0 via `|| 0`; `isProjected` is the truthiness of the
projection lookup. -/
def prepareMonthlyData (summary : Option Summary) : List MonthRow :=
  let trends := match summary with | some s => s.monthly_trends | none => []
  let projected := match summary with | some s => s.projected_sales | none => []
  let combined := trends ++ projected
  combined.map fun item =>
    { month := formatMonth item.month
      monthKey := item.month
      actualCount := (((trends.find? fun m => m.month == item.month).map
        (fun m => m.count)).getD 0)
      projectedCount := (((projected.find? fun m => m.month == item.month).map
        (fun m => m.count)).getD 0)
      actualRevenue := (((trends.find? fun m => m.month == item.month).map
        (fun m => m.revenue)).getD 0)
      projectedRevenue := (((projected.find? fun m => m.month == item.month).map
        (fun m => m.revenue)).getD 0)
      isProjected := (projected.find? fun m => m.month == item.month).isSome }

/-- C2 counterexample.  A month key present in both the actual and the
projected series does not appear exactly once in the merged output: with
`monthly_trends = [{month := "2025-01"}]` and
`projected_sales = [{month := "2025-01"}]` the key `"2025-01"` occurs in
both sources yet yields two rows. -/
theorem monthly_merge_duplicate_boundary :
    (Summary.mk [⟨"2025-01", 1, 10⟩] [⟨"2025-01", 2, 20⟩] [] [] [] [] [] []).monthly_trends.countP
        (fun m => m.month == "2025-01") = 1
    ∧ (Summary.mk [⟨"2025-01", 1, 10⟩] [⟨"2025-01", 2, 20⟩] [] [] [] [] [] []).projected_sales.countP
        (fun m => m.month == "2025-01") = 1
    ∧ (prepareMonthlyData
        (some (Summary.mk [⟨"2025-01", 1, 10⟩] [⟨"2025-01", 2, 20⟩] [] [] [] [] [] []))).countP
        (fun r => r.monthKey == "2025-01") = 2 := by
  exact ⟨rfl, rfl, rfl⟩

/-- C2 amended.  Every month key appears in the merged monthly series
once per occurrence in the concatenation of the actual and the projected
series: its row count in the output is the sum of its occurrence counts
in the two sources.  In particular a key present in exactly one of two
duplicate-free series appears exactly once, while a boundary month
present in both series appears twice. -/
theorem monthly_merge_count (s : Summary) (k : String) :
    (prepareMonthlyData (some s)).countP (fun r => r.monthKey == k)
      = s.monthly_trends.countP (fun m => m.month == k)
        + s.projected_sales.countP (fun m => m.month == k) := by
  simp only [prepareMonthlyData]
  rw [List.countP_map, ← List.countP_append]
  rfl

/-! ## Category breakdowns (`prepareZoneData`, `prepareLeadSourceData`,
`prepareSoldByData`)

Each breakdown maps `Object.entries` of a counts object to rows
`{key, count, revenue}` with `revenue := revenueMap[key] || 0`, sorts
the fresh row array in place with the comparator
`(a, b) => b.revenue - a.revenue` — `Array.prototype.sort` is a stable
sort, so this is the stable descending-by-revenue sort — and, for zone
and lead source only, slices the first 10 and 8 rows respectively.
`sortRows` below is stable insertion sort for descending revenue, which
agrees extensionally with any stable sort for the same comparator.  The
row field holding the category key is named `zone`/`source`/`soldBy` in
the source depending on the breakdown; the single `key` field stands for
all three. -/

structure ChartRow where
  key : String
  count : Int
  revenue : Int
deriving DecidableEq, Repr

/-- The lookup `revenueMap[key] || 0`: the value stored at `key`, or 0
when the key is absent (a stored 0 is falsy and also yields 0). -/
def jsLookupOr0 (m : List (String × Int)) (k : String) : Int :=
  (((m.find? fun p => p.1 == k).map fun p => p.2).getD 0)

/-- `Object.entries(counts).map(([key, count]) => ({key, count, revenue: revenueMap[key] || 0}))`. -/
def joinRows (counts revenue : List (String × Int)) : List ChartRow :=
  counts.map fun p => ⟨p.1, p.2, jsLookupOr0 revenue p.1⟩

/-- Insert a row into an already descending-sorted list, before the
first row of strictly smaller revenue (so after earlier rows of equal
revenue: the stable position). -/
def insertRow (x : ChartRow) : List ChartRow → List ChartRow
  | [] => [x]
  | y :: l => if y.revenue ≤ x.revenue then x :: y :: l else y :: insertRow x l

/-- The stable sort with comparator `(a, b) => b.revenue - a.revenue`:
descending by revenue, ties keeping their original relative order. -/
def sortRows : List ChartRow → List ChartRow
  | [] => []
  | x :: l => insertRow x (sortRows l)

/-- `prepareZoneData`: join `by_zone` with `by_zone_revenue`, sort
descending by revenue, keep the top 10; `[]` on a null payload. -/
def prepareZoneData : Option Summary → List ChartRow
  | none => []
  | some s => (sortRows (joinRows s.by_zone s.by_zone_revenue)).take 10

/-- `prepareLeadSourceData`: join `by_lead_source` with
`by_lead_source_revenue`, sort descending by revenue, keep the top 8;
`[]` on a null payload. -/
def prepareLeadSourceData : Option Summary → List ChartRow
  | none => []
  | some s => (sortRows (joinRows s.by_lead_source s.by_lead_source_revenue)).take 8

/-- `prepareSoldByData`: join `by_sold_by` with `by_sold_by_revenue` and
sort descending by revenue, with no truncation; `[]` on a null
payload. -/
def prepareSoldByData : Option Summary → List ChartRow
  | none => []
  | some s => sortRows (joinRows s.by_sold_by s.by_sold_by_revenue)

theorem insertRow_perm (x : ChartRow) (l : List ChartRow) :
    (insertRow x l).Perm (x :: l) := by
  induction l with
  | nil => exact List.Perm.refl _
  | cons y l ih =>
    simp only [insertRow]
    split
    · exact List.Perm.refl _
    · exact ((ih.cons y).trans (List.Perm.swap x y l))

theorem sortRows_perm (l : List ChartRow) : (sortRows l).Perm l := by
  induction l with
  | nil => exact List.Perm.refl _
  | cons x l ih => exact (insertRow_perm x (sortRows l)).trans (ih.cons x)

/-- The descending-revenue order on rows. -/
def revGE (a b : ChartRow) : Prop := b.revenue ≤ a.revenue

theorem insertRow_sorted (x : ChartRow) (l : List ChartRow)
    (h : l.Pairwise revGE) : (insertRow x l).Pairwise revGE := by
  induction l with
  | nil => simp [insertRow, revGE]
  | cons y l ih =>
    simp only [insertRow]
    split
    · rename_i hxy
      refine List.Pairwise.cons ?_ h
      intro z hz
      rcases List.mem_cons.mp hz with rfl | hz'
      · exact hxy
      · have := (List.pairwise_cons.mp h).1 z hz'
        simp only [revGE] at *
        omega
    · rename_i hxy
      have hl := (List.pairwise_cons.mp h).2
      refine List.Pairwise.cons ?_ (ih hl)
      intro z hz
      rcases List.mem_cons.mp ((insertRow_perm x l).mem_iff.mp hz) with rfl | hz'
      · simp only [revGE] at *
        omega
      · exact (List.pairwise_cons.mp h).1 z hz'

theorem sortRows_sorted (l : List ChartRow) : (sortRows l).Pairwise revGE := by
  induction l with
  | nil => simp [sortRows]
  | cons x l ih => exact insertRow_sorted x (sortRows l) ih

theorem insertRow_filter_eq (x : ChartRow) (l : List ChartRow) (v : Int)
    (hx : x.revenue = v) (h : l.Pairwise revGE) :
    (insertRow x l).filter (fun r => r.revenue == v)
      = x :: l.filter (fun r => r.revenue == v) := by
  induction l with
  | nil => simp [insertRow, List.filter, hx]
  | cons y l ih =>
    simp only [insertRow]
    split
    · simp [List.filter_cons, hx]
    · rename_i hxy
      have hyv : ¬ (y.revenue == v) := by
        simp only [beq_iff_eq]
        omega
      simp only [List.filter_cons, hyv, if_neg, decide_eq_true_eq]
      have hl := (List.pairwise_cons.mp h).2
      rw [if_neg (by simp [hyv]), if_neg (by simp [hyv]), ih hl]

theorem insertRow_filter_ne (x : ChartRow) (l : List ChartRow) (v : Int)
    (hx : ¬ x.revenue = v) :
    (insertRow x l).filter (fun r => r.revenue == v)
      = l.filter (fun r => r.revenue == v) := by
  induction l with
  | nil => simp [insertRow, List.filter_cons, hx]
  | cons y l ih =>
    simp only [insertRow]
    split
    · simp [List.filter_cons, hx]
    · simp only [List.filter_cons]
      rw [ih]

/-- Stability of the sort: restricted to any one revenue value, the
sorted list lists the rows in their original order. -/
theorem sortRows_stable (l : List ChartRow) (v : Int) :
    (sortRows l).filter (fun r => r.revenue == v)
      = l.filter (fun r => r.revenue == v) := by
  induction l with
  | nil => rfl
  | cons x l ih =>
    simp only [sortRows]
    by_cases hx : x.revenue = v
    · rw [insertRow_filter_eq x (sortRows l) v hx (sortRows_sorted l),
        List.filter_cons, if_pos (by simpa using hx), ih]
    · rw [insertRow_filter_ne x (sortRows l) v hx,
        List.filter_cons, if_neg (by simpa using hx), ih]

/-- Keys of the sorted joined rows: one row per counts entry, carrying
that entry's key, in some order. -/
theorem sortRows_keys_perm (c r : List (String × Int)) :
    ((sortRows (joinRows c r)).map (fun row => row.key)).Perm (c.map Prod.fst) := by
  refine ((sortRows_perm (joinRows c r)).map (fun row => row.key)).trans ?_
  rw [joinRows, List.map_map]
  exact List.Perm.refl _

/-- The zone scenario payload of the spec: counts `{A:5, B:10, C:3}`,
revenue `{A:100, B:50}` with `C` absent. -/
def scenarioSummary : Summary :=
  ⟨[], [], [("A", 5), ("B", 10), ("C", 3)], [("A", 100), ("B", 50)], [], [], [], []⟩

/-- C3.  Each category breakdown sorts its rows descending by revenue
(ties keeping the original key encounter order — the filter equations
state that restricted to one revenue value the output lists the joined
rows in their original order), truncates to the top 10 entries for zone
and the top 8 for lead-source, and leaves sold-by untruncated; the zone
scenario `{A:5, B:10, C:3}` with revenue `{A:100, B:50}` yields the rows
`[A(100), B(50), C(0)]`. -/
theorem breakdown_join_sort_truncate (s : Summary) (v : Int) :
    (prepareZoneData (some s)).Pairwise revGE
    ∧ (prepareLeadSourceData (some s)).Pairwise revGE
    ∧ (prepareSoldByData (some s)).Pairwise revGE
    ∧ (prepareSoldByData (some s)).filter (fun row => row.revenue == v)
        = (joinRows s.by_sold_by s.by_sold_by_revenue).filter (fun row => row.revenue == v)
    ∧ (sortRows (joinRows s.by_zone s.by_zone_revenue)).filter (fun row => row.revenue == v)
        = (joinRows s.by_zone s.by_zone_revenue).filter (fun row => row.revenue == v)
    ∧ (sortRows (joinRows s.by_lead_source s.by_lead_source_revenue)).filter
          (fun row => row.revenue == v)
        = (joinRows s.by_lead_source s.by_lead_source_revenue).filter
          (fun row => row.revenue == v)
    ∧ prepareZoneData (some s)
        = (sortRows (joinRows s.by_zone s.by_zone_revenue)).take 10
    ∧ prepareLeadSourceData (some s)
        = (sortRows (joinRows s.by_lead_source s.by_lead_source_revenue)).take 8
    ∧ prepareSoldByData (some s)
        = sortRows (joinRows s.by_sold_by s.by_sold_by_revenue)
    ∧ (prepareZoneData (some s)).length = min 10 s.by_zone.length
    ∧ (prepareLeadSourceData (some s)).length = min 8 s.by_lead_source.length
    ∧ (prepareSoldByData (some s)).length = s.by_sold_by.length
    ∧ prepareZoneData (some scenarioSummary)
        = [⟨"A", 5, 100⟩, ⟨"B", 10, 50⟩, ⟨"C", 3, 0⟩] := by
  refine ⟨?_, ?_, ?_, sortRows_stable _ v, sortRows_stable _ v, sortRows_stable _ v,
    rfl, rfl, rfl, ?_, ?_, ?_, by decide⟩
  · exact List.Pairwise.sublist (List.take_sublist _ _) (sortRows_sorted _)
  · exact List.Pairwise.sublist (List.take_sublist _ _) (sortRows_sorted _)
  · exact sortRows_sorted _
  · simp [prepareZoneData, List.length_take, (sortRows_perm _).length_eq, joinRows]
  · simp [prepareLeadSourceData, List.length_take, (sortRows_perm _).length_eq, joinRows]
  · simp [prepareSoldByData, (sortRows_perm _).length_eq, joinRows]

/-- C10.  For every breakdown the keys of the rows before top-N
truncation are exactly the keys of the counts mapping, with one row per
counts entry; hence a key present only in the revenue mapping produces
no row and its revenue value is absent from the output. -/
theorem breakdown_keys_exact (counts revenue : List (String × Int))
    (s : Summary) (k : String) :
    ((sortRows (joinRows counts revenue)).map (fun row => row.key)).Perm
        (counts.map Prod.fst)
    ∧ (k ∈ (sortRows (joinRows counts revenue)).map (fun row => row.key)
        ↔ k ∈ counts.map Prod.fst)
    ∧ ((prepareSoldByData (some s)).map (fun row => row.key)).Perm
        (s.by_sold_by.map Prod.fst)
    ∧ ((sortRows (joinRows s.by_zone s.by_zone_revenue)).map (fun row => row.key)).Perm
        (s.by_zone.map Prod.fst)
    ∧ ((sortRows (joinRows s.by_lead_source s.by_lead_source_revenue)).map
          (fun row => row.key)).Perm
        (s.by_lead_source.map Prod.fst) := by
  exact ⟨sortRows_keys_perm counts revenue,
    (sortRows_keys_perm counts revenue).mem_iff,
    sortRows_keys_perm s.by_sold_by s.by_sold_by_revenue,
    sortRows_keys_perm s.by_zone s.by_zone_revenue,
    sortRows_keys_perm s.by_lead_source s.by_lead_source_revenue⟩

/-! ## Revenue totals of the breakdowns -/

/-- Total revenue across a list of chart rows. -/
def sumRevenue (l : List ChartRow) : Int := (l.map fun row => row.revenue).sum

/-- Total of the values of a counts/revenue mapping. -/
def sumValues (m : List (String × Int)) : Int := (m.map fun p => p.2).sum

theorem jsLookupOr0_cons_eq (k : String) (v : Int) (rest : List (String × Int)) :
    jsLookupOr0 ((k, v) :: rest) k = v := by
  simp [jsLookupOr0, List.find?]

theorem jsLookupOr0_cons_ne (k k' : String) (v : Int) (rest : List (String × Int))
    (h : k' ≠ k) : jsLookupOr0 ((k, v) :: rest) k' = jsLookupOr0 rest k' := by
  simp only [jsLookupOr0, List.find?]
  rw [show ((k, v).1 == k') = false by simpa using fun h' => h h'.symm]

theorem jsLookupOr0_eq_zero_of_not_mem (m : List (String × Int)) (k : String)
    (h : k ∉ m.map Prod.fst) : jsLookupOr0 m k = 0 := by
  induction m with
  | nil => rfl
  | cons p rest ih =>
    have hne : k ≠ p.1 := by
      intro hk
      exact h (by simp [hk])
    rw [show p = (p.1, p.2) from rfl, jsLookupOr0_cons_ne _ _ _ _ hne]
    exact ih (fun hk => h (List.mem_cons_of_mem _ hk))

theorem jsLookupOr0_nonneg (m : List (String × Int)) (k : String)
    (h : ∀ p ∈ m, 0 ≤ p.2) : 0 ≤ jsLookupOr0 m k := by
  simp only [jsLookupOr0]
  cases hf : m.find? fun p => p.1 == k with
  | none => simp
  | some p => simpa using h p (List.mem_of_find?_eq_some hf)

theorem sum_lookup_nil (c : List (String × Int)) :
    (c.map fun p => jsLookupOr0 [] p.1).sum = 0 := by
  induction c with
  | nil => rfl
  | cons p rest ih => simp [jsLookupOr0, ih]

theorem sum_lookup_cons_split (c rest : List (String × Int)) (k : String) (v : Int)
    (hnd : (c.map Prod.fst).Nodup) (hk : k ∈ c.map Prod.fst)
    (hrest : k ∉ rest.map Prod.fst) :
    (c.map fun p => jsLookupOr0 ((k, v) :: rest) p.1).sum
      = v + (c.map fun p => jsLookupOr0 rest p.1).sum := by
  induction c with
  | nil => cases hk
  | cons q cs ih =>
    have hq_notin : q.1 ∉ cs.map Prod.fst := (List.nodup_cons.mp (by simpa using hnd)).1
    have hcs_nd : (cs.map Prod.fst).Nodup := (List.nodup_cons.mp (by simpa using hnd)).2
    simp only [List.map_cons, List.sum_cons]
    by_cases hqk : q.1 = k
    · have htail : (cs.map fun p => jsLookupOr0 ((k, v) :: rest) p.1)
          = cs.map fun p => jsLookupOr0 rest p.1 := by
        apply List.map_congr_left
        intro p hp
        have hpne : p.1 ≠ k := by
          intro hpk
          exact hq_notin (hqk ▸ hpk ▸ List.mem_map_of_mem Prod.fst hp)
        exact jsLookupOr0_cons_ne _ _ _ _ hpne
      rw [hqk, jsLookupOr0_cons_eq, htail,
        jsLookupOr0_eq_zero_of_not_mem rest k hrest]
      ring
    · have hk_cs : k ∈ cs.map Prod.fst := by
        rw [List.map_cons] at hk
        rcases List.mem_cons.mp hk with h | h
        · exact absurd h.symm hqk
        · exact h
      rw [jsLookupOr0_cons_ne _ _ _ _ hqk, ih hcs_nd hk_cs]
      ring

/-- Joining a revenue mapping whose keys all occur among the (unique)
count keys loses nothing: summing the per-key lookups over the counts
mapping recovers the total of the revenue values. -/
theorem sum_lookup_over_counts (c rev : List (String × Int))
    (hcnd : (c.map Prod.fst).Nodup) (hrnd : (rev.map Prod.fst).Nodup)
    (hsub : ∀ p ∈ rev, p.1 ∈ c.map Prod.fst) :
    (c.map fun p => jsLookupOr0 rev p.1).sum = sumValues rev := by
  induction rev with
  | nil => simpa [sumValues] using sum_lookup_nil c
  | cons q rest ih =>
    have hq_notin : q.1 ∉ rest.map Prod.fst := (List.nodup_cons.mp (by simpa using hrnd)).1
    have hrest_nd : (rest.map Prod.fst).Nodup := (List.nodup_cons.mp (by simpa using hrnd)).2
    have hq_in : q.1 ∈ c.map Prod.fst := hsub q (List.mem_cons_self q rest)
    rw [show q = (q.1, q.2) from rfl] at *
    rw [sum_lookup_cons_split c rest q.1 q.2 hcnd hq_in hq_notin,
      ih hrest_nd (fun p hp => hsub p (List.mem_cons_of_mem _ hp))]
    simp [sumValues]

theorem sumRevenue_joinRows (c rev : List (String × Int)) :
    sumRevenue (joinRows c rev) = (c.map fun p => jsLookupOr0 rev p.1).sum := by
  rw [sumRevenue, joinRows, List.map_map]
  rfl

theorem sumRevenue_sortRows (l : List ChartRow) :
    sumRevenue (sortRows l) = sumRevenue l := by
  simp only [sumRevenue]
  exact ((sortRows_perm l).map fun row => row.revenue).sum_eq

theorem sumRevenue_take_le (l : List ChartRow) (n : Nat)
    (h : ∀ row ∈ l, 0 ≤ row.revenue) : sumRevenue (l.take n) ≤ sumRevenue l := by
  conv_rhs => rw [← List.take_append_drop n l]
  rw [sumRevenue, sumRevenue, List.map_append, List.sum_append]
  have : 0 ≤ ((l.drop n).map fun row => row.revenue).sum := by
    apply List.sum_nonneg
    intro x hx
    rcases List.mem_map.mp hx with ⟨row, hrow, rfl⟩
    exact h row (List.mem_of_mem_drop hrow)
  omega

/-- C5 counterexample.  The row-revenue totals are not conserved for
every payload: with `by_sold_by = {}` and `by_sold_by_revenue = {X: 5}`
the sold-by rows sum to 0, not 5 (the revenue at the key `X`, absent
from the counts mapping, is silently dropped); and with
`by_zone = {A: 1}` and `by_zone_revenue = {A: 5, B: -3}` the top-10 zone
rows sum to 5, which exceeds the revenue total 2. -/
theorem breakdown_sum_counterexample :
    ¬ (sumRevenue (prepareSoldByData
          (some ⟨[], [], [("A", 1)], [("A", 5), ("B", -3)], [], [], [], [("X", 5)]⟩))
        = sumValues [("X", 5)])
    ∧ ¬ (sumRevenue (prepareZoneData
          (some ⟨[], [], [("A", 1)], [("A", 5), ("B", -3)], [], [], [], [("X", 5)]⟩))
        ≤ sumValues [("A", 5), ("B", -3)]) := by
  exact ⟨by decide, by decide⟩

/-- C5 amended.  Provided the keys of each mapping are unique (as JS
object keys are), every key of a revenue mapping also occurs in the
paired counts mapping (the converse of the spec invariant that count
keys default to revenue 0), and revenue values are nonnegative, the
sum of the revenue values across all rows of the untruncated sold-by
breakdown equals the total of the sold-by revenue mapping, and the
top-N zone and lead-source row sums are at most their revenue mapping
totals.  Without the key condition, revenue at keys missing from the
counts mapping is silently dropped; without nonnegativity a top-N sum
can exceed the total. -/
theorem breakdown_sum_conservation (s : Summary)
    (hs_nd : (s.by_sold_by.map Prod.fst).Nodup)
    (hsr_nd : (s.by_sold_by_revenue.map Prod.fst).Nodup)
    (hs_sub : ∀ p ∈ s.by_sold_by_revenue, p.1 ∈ s.by_sold_by.map Prod.fst)
    (hz_nd : (s.by_zone.map Prod.fst).Nodup)
    (hzr_nd : (s.by_zone_revenue.map Prod.fst).Nodup)
    (hz_sub : ∀ p ∈ s.by_zone_revenue, p.1 ∈ s.by_zone.map Prod.fst)
    (hz_pos : ∀ p ∈ s.by_zone_revenue, 0 ≤ p.2)
    (hl_nd : (s.by_lead_source.map Prod.fst).Nodup)
    (hlr_nd : (s.by_lead_source_revenue.map Prod.fst).Nodup)
    (hl_sub : ∀ p ∈ s.by_lead_source_revenue, p.1 ∈ s.by_lead_source.map Prod.fst)
    (hl_pos : ∀ p ∈ s.by_lead_source_revenue, 0 ≤ p.2) :
    sumRevenue (prepareSoldByData (some s)) = sumValues s.by_sold_by_revenue
    ∧ sumRevenue (prepareZoneData (some s)) ≤ sumValues s.by_zone_revenue
    ∧ sumRevenue (prepareLeadSourceData (some s)) ≤ sumValues s.by_lead_source_revenue := by
  have rows_nonneg :
      ∀ (c rev : List (String × Int)), (∀ p ∈ rev, 0 ≤ p.2) →
        ∀ row ∈ sortRows (joinRows c rev), 0 ≤ row.revenue := by
    intro c rev hrev row hrow
    have hrow' := (sortRows_perm (joinRows c rev)).mem_iff.mp hrow
    rcases List.mem_map.mp hrow' with ⟨p, _, rfl⟩
    exact jsLookupOr0_nonneg rev p.1 hrev
  refine ⟨?_, ?_, ?_⟩
  · rw [prepareSoldByData, sumRevenue_sortRows, sumRevenue_joinRows]
    exact sum_lookup_over_counts _ _ hs_nd hsr_nd hs_sub
  · calc sumRevenue (prepareZoneData (some s))
        ≤ sumRevenue (sortRows (joinRows s.by_zone s.by_zone_revenue)) := by
          rw [prepareZoneData]
          exact sumRevenue_take_le _ 10 (rows_nonneg _ _ hz_pos)
      _ = sumValues s.by_zone_revenue := by
          rw [sumRevenue_sortRows, sumRevenue_joinRows]
          exact sum_lookup_over_counts _ _ hz_nd hzr_nd hz_sub
  · calc sumRevenue (prepareLeadSourceData (some s))
        ≤ sumRevenue (sortRows (joinRows s.by_lead_source s.by_lead_source_revenue)) := by
          rw [prepareLeadSourceData]
          exact sumRevenue_take_le _ 8 (rows_nonneg _ _ hl_pos)
      _ = sumValues s.by_lead_source_revenue := by
          rw [sumRevenue_sortRows, sumRevenue_joinRows]
          exact sum_lookup_over_counts _ _ hl_nd hlr_nd hl_sub

/-- Concrete instance of `breakdown_sum_conservation`: two salespeople
with revenues 300 and 200 sum to 500, and the zone and lead-source
top-N sums stay within their totals. -/
theorem breakdown_sum_conservation_witness :
    sumRevenue (prepareSoldByData
        (some ⟨[], [], [("A", 1)], [("A", 100)], [("L", 1)], [("L", 50)],
          [("S1", 2), ("S2", 1)], [("S1", 300), ("S2", 200)]⟩))
      = sumValues [("S1", 300), ("S2", 200)]
    ∧ sumRevenue (prepareZoneData
        (some ⟨[], [], [("A", 1)], [("A", 100)], [("L", 1)], [("L", 50)],
          [("S1", 2), ("S2", 1)], [("S1", 300), ("S2", 200)]⟩))
      ≤ sumValues [("A", 100)]
    ∧ sumRevenue (prepareLeadSourceData
        (some ⟨[], [], [("A", 1)], [("A", 100)], [("L", 1)], [("L", 50)],
          [("S1", 2), ("S2", 1)], [("S1", 300), ("S2", 200)]⟩))
      ≤ sumValues [("L", 50)] :=
  breakdown_sum_conservation
    ⟨[], [], [("A", 1)], [("A", 100)], [("L", 1)], [("L", 50)],
      [("S1", 2), ("S2", 1)], [("S1", 300), ("S2", 200)]⟩
    (by decide) (by decide) (by decide) (by decide) (by decide) (by decide)
    (by decide) (by decide) (by decide) (by decide) (by decide)

/-! ## View-model construction (C7)

The component body computes the four chart series from the payload in
sequence (`monthlyData`, `zoneData`, `leadSourceData`, `soldByData`).
None of the preparation steps writes into the payload: every access is
a read (`?.`, `Object.entries`, `find`, spread), new row objects are
built by `map`, and the one in-place operation used,
`Array.prototype.sort`, is applied only to the fresh arrays those `map`
calls return.  `buildViewModel` therefore returns, alongside the four
series, the payload exactly as the build leaves it — which is the
payload it was given. -/

structure ViewModel where
  monthlyData : List MonthRow
  zoneData : List ChartRow
  leadSourceData : List ChartRow
  soldByData : List ChartRow
deriving DecidableEq, Repr

/-- The four `prepare*` calls of the component body, together with the
payload as it stands after they run. -/
def buildViewModel (summary : Option Summary) : ViewModel × Option Summary :=
  (⟨prepareMonthlyData summary, prepareZoneData summary,
    prepareLeadSourceData summary, prepareSoldByData summary⟩, summary)

/-- C7.  Building the view-model leaves the payload unchanged, and
building a second time from the payload the first build leaves behind
yields the identical view-model. -/
theorem build_view_model_pure_idempotent (s : Option Summary) :
    (buildViewModel s).2 = s
    ∧ (buildViewModel ((buildViewModel s).2)).1 = (buildViewModel s).1 := by
  exact ⟨rfl, rfl⟩

/-! ## Record history resolver (`fetchRelatedRecords`,
`handleViewRelatedRecord`)

Only the fields of a record that the resolver logic touches are
modelled: the numeric id, the client phone (absent or a string — the
guard `!currentRecord.client_phone` is falsy also for the empty
string), and the client name standing for the record's remaining data.
The `api.get` calls are asynchronous collaborators; each invocation is
given the outcome of its one network call as an `Except` value, `.error`
covering every fetch failure (timeout, non-2xx, unreachable host). -/

structure RecordData where
  id : Int
  client_phone : Option String
  client_name : String
deriving DecidableEq, Repr

/-- Truthiness test of the phone field: `!currentRecord.client_phone`
holds when the field is missing/null or the empty string. -/
def phoneFalsy : Option String → Bool
  | none => true
  | some s => s.isEmpty

/-- Outcome of one run of `fetchRelatedRecords`: the value assigned to
the `relatedRecords` state, whether `api.get` was invoked at all, and
the error logged by the `catch` block, if any.  The function always
completes normally (the `catch` swallows the failure), so no error
component escapes. -/
structure HistoryOutcome where
  relatedRecords : List RecordData
  networkCalled : Bool
  loggedError : Option String
deriving DecidableEq, Repr

/-- `fetchRelatedRecords` from `RecordDetailModal.tsx`: a falsy phone
clears the history and returns before any network call; otherwise the
`/records/history/...` response either fills the history or, on
failure, is logged and the history is cleared. -/
def fetchRelatedRecords (currentRecord : RecordData)
    (net : Except String (List RecordData)) : HistoryOutcome :=
  if phoneFalsy currentRecord.client_phone then
    ⟨[], false, none⟩
  else
    match net with
    | .ok recs => ⟨recs, true, none⟩
    | .error e => ⟨[], true, some e⟩

/-- C8.  Without a client phone the resolver returns an empty history
without a network call; and when the fetch fails it returns an empty
history with the failure logged (a recoverable outcome — the function
returns a plain value, so nothing crashes). -/
theorem history_resolver_contract (r : RecordData)
    (net : Except String (List RecordData)) :
    (phoneFalsy r.client_phone = true →
      fetchRelatedRecords r net = ⟨[], false, none⟩)
    ∧ (phoneFalsy r.client_phone = false → ∀ e, net = .error e →
      fetchRelatedRecords r net = ⟨[], true, some e⟩) := by
  constructor
  · intro h
    simp [fetchRelatedRecords, h]
  · intro h e he
    simp [fetchRelatedRecords, h, he]

/-- Concrete instance of `history_resolver_contract`: a record without a
phone makes no network call, and a record with phone `"555-1234"` whose
fetch times out ends with an empty history and the error logged. -/
theorem history_resolver_contract_witness :
    fetchRelatedRecords ⟨7, none, "A"⟩ (.ok [⟨8, none, "B"⟩]) = ⟨[], false, none⟩
    ∧ fetchRelatedRecords ⟨7, some "555-1234", "A"⟩ (.error "timeout")
        = ⟨[], true, some "timeout"⟩ := by
  exact ⟨(history_resolver_contract ⟨7, none, "A"⟩ (.ok [⟨8, none, "B"⟩])).1 (by decide),
    (history_resolver_contract ⟨7, some "555-1234", "A"⟩ (.error "timeout")).2
      (by decide) "timeout" rfl⟩

/-- The modal state `handleViewRelatedRecord` manipulates: the record on
display and the related-records history list. -/
structure ModalState where
  currentRecord : RecordData
  relatedRecords : List RecordData
deriving DecidableEq, Repr

/-- `handleViewRelatedRecord` from `RecordDetailModal.tsx`: fetch the
full detail of the clicked related record; on success replace the
displayed record with the response and clear the history; on failure
fall back to `onEdit(relatedRecord.id)` followed by `onClose()`,
signalled here as `some id` in the second component. -/
def handleViewRelatedRecord (st : ModalState) (relatedRecord : RecordData)
    (net : Except String RecordData) : ModalState × Option Int :=
  match net with
  | .ok full => (⟨full, []⟩, none)
  | .error _ => (st, some relatedRecord.id)

/-- C9.  Switching to a related record replaces the displayed record
with the freshly fetched detail and clears the history list; on fetch
failure the state (hence the displayed record) is left untouched and the
edit flow is signalled for the originally clicked record's id. -/
theorem switch_record_contract (st : ModalState) (clicked : RecordData)
    (net : Except String RecordData) :
    (∀ full, net = .ok full →
      handleViewRelatedRecord st clicked net = (⟨full, []⟩, none))
    ∧ (∀ e, net = .error e →
      handleViewRelatedRecord st clicked net = (st, some clicked.id)) := by
  constructor
  · intro full h
    rw [h]
    rfl
  · intro e h
    rw [h]
    rfl

/-- Concrete instance of `switch_record_contract`: clicking record 9
either shows its fetched detail with a cleared history, or, when the
fetch fails, keeps record 7 on display and signals edit of 9. -/
theorem switch_record_contract_witness :
    handleViewRelatedRecord ⟨⟨7, some "555-1234", "A"⟩, [⟨9, some "555-1234", "B"⟩]⟩
        ⟨9, some "555-1234", "B"⟩ (.ok ⟨9, some "555-1234", "B full"⟩)
      = (⟨⟨9, some "555-1234", "B full"⟩, []⟩, none)
    ∧ handleViewRelatedRecord ⟨⟨7, some "555-1234", "A"⟩, [⟨9, some "555-1234", "B"⟩]⟩
        ⟨9, some "555-1234", "B"⟩ (.error "fetch failed")
      = (⟨⟨7, some "555-1234", "A"⟩, [⟨9, some "555-1234", "B"⟩]⟩, some 9) := by
  exact ⟨(switch_record_contract _ _ _).1 ⟨9, some "555-1234", "B full"⟩ rfl,
    (switch_record_contract _ _ _).2 "fetch failed" rfl⟩
